import Mathlib

/-!
Verification development for the gavdash backend (src/index.js).

The backend's normalization core works on schema-less JSON payloads.  We embed
JSON values as the inductive `Json` below.  JavaScript object property
enumeration order is encoded by the order of the `obj` field list (the Lean
list is the `Object.entries` order of the source object).  JavaScript `null`
and `undefined` are both modelled by `Json.null` where the source only ever
distinguishes them through nullish checks; property *absence* (undefined) is
modelled by `Option` at the accessor level.  JS numbers are modelled as `Int`:
every number the code manipulates (field ids, counts, lengths) is integral.
-/

inductive Json where
  | null
  | bool (b : Bool)
  | num (n : Int)
  | str (s : String)
  | arr (elems : List Json)
  | obj (fields : List (String × Json))

mutual
def jsonBeq : Json → Json → Bool
  | .null, .null => true
  | .bool a, .bool b => a = b
  | .num a, .num b => a = b
  | .str a, .str b => a = b
  | .arr a, .arr b => jsonListBeq a b
  | .obj a, .obj b => jsonFieldsBeq a b
  | _, _ => false
def jsonListBeq : List Json → List Json → Bool
  | [], [] => true
  | a :: as, b :: bs => jsonBeq a b && jsonListBeq as bs
  | _, _ => false
def jsonFieldsBeq : List (String × Json) → List (String × Json) → Bool
  | [], [] => true
  | (k1,v1) :: as, (k2,v2) :: bs => k1 = k2 && jsonBeq v1 v2 && jsonFieldsBeq as bs
  | _, _ => false
end

mutual
theorem jsonBeq_refl : ∀ j : Json, jsonBeq j j = true
  | .null => rfl
  | .bool b => by simp [jsonBeq]
  | .num n => by simp [jsonBeq]
  | .str s => by simp [jsonBeq]
  | .arr xs => by simp [jsonBeq, jsonListBeq_refl xs]
  | .obj fs => by simp [jsonBeq, jsonFieldsBeq_refl fs]
theorem jsonListBeq_refl : ∀ l : List Json, jsonListBeq l l = true
  | [] => rfl
  | x :: xs => by simp [jsonListBeq, jsonBeq_refl x, jsonListBeq_refl xs]
theorem jsonFieldsBeq_refl : ∀ l : List (String × Json), jsonFieldsBeq l l = true
  | [] => rfl
  | (k,v) :: xs => by simp [jsonFieldsBeq, jsonBeq_refl v, jsonFieldsBeq_refl xs]
end

mutual
theorem jsonBeq_eq : ∀ a b : Json, jsonBeq a b = true → a = b
  | .null, .null, _ => rfl
  | .bool a, .bool b, h => by simp_all [jsonBeq]
  | .num a, .num b, h => by simp_all [jsonBeq]
  | .str a, .str b, h => by simp_all [jsonBeq]
  | .arr a, .arr b, h => by
      simp only [jsonBeq] at h; exact congrArg Json.arr (jsonListBeq_eq a b h)
  | .obj a, .obj b, h => by
      simp only [jsonBeq] at h; exact congrArg Json.obj (jsonFieldsBeq_eq a b h)
theorem jsonListBeq_eq : ∀ a b : List Json, jsonListBeq a b = true → a = b
  | [], [], _ => rfl
  | x :: xs, y :: ys, h => by
      simp only [jsonListBeq, Bool.and_eq_true] at h
      rw [jsonBeq_eq x y h.1, jsonListBeq_eq xs ys h.2]
  | [], _ :: _, h => by simp [jsonListBeq] at h
  | _ :: _, [], h => by simp [jsonListBeq] at h
theorem jsonFieldsBeq_eq : ∀ a b : List (String × Json), jsonFieldsBeq a b = true → a = b
  | [], [], _ => rfl
  | (k1,v1) :: xs, (k2,v2) :: ys, h => by
      simp only [jsonFieldsBeq, Bool.and_eq_true] at h
      obtain ⟨⟨hk, hv⟩, ht⟩ := h
      rw [jsonFieldsBeq_eq xs ys ht, jsonBeq_eq v1 v2 hv]
      simp_all
  | [], _ :: _, h => by simp [jsonFieldsBeq] at h
  | _ :: _, [], h => by simp [jsonFieldsBeq] at h
end

instance : DecidableEq Json := fun a b =>
  decidable_of_iff (jsonBeq a b = true) ⟨jsonBeq_eq a b, fun h => h ▸ jsonBeq_refl a⟩

/-- JS string truthiness / `Boolean(v)` for JSON-like values: `null`/`undefined`,
`false`, `0` and `""` are falsy; every object and array (even empty) is truthy. -/
def jsTruthy : Json → Bool
  | .null => false
  | .bool b => b
  | .num n => n ≠ 0
  | .str s => s ≠ ""
  | .arr _ => true
  | .obj _ => true

/-- ASCII whitespace recognised by the model of `String.prototype.trim`. -/
def isWs (c : Char) : Bool := c = ' ' ∨ c = '\t' ∨ c = '\n' ∨ c = '\r'

/-- Model of the JS builtin `String.prototype.trim` (strip leading and trailing
whitespace).  Implemented over the character list so it evaluates by `decide`. -/
def jsTrim (s : String) : String :=
  ⟨((s.data.dropWhile isWs).reverse.dropWhile isWs).reverse⟩

def lowChar (c : Char) : Char :=
  if c.toNat ≥ 65 ∧ c.toNat ≤ 90 then Char.ofNat (c.toNat + 32) else c

/-- Model of the JS builtin `String.prototype.toLowerCase` (ASCII range; the
success-word vocabulary in the source is all ASCII). -/
def jsLower (s : String) : String := ⟨s.data.map lowChar⟩

/-- Lexicographic code-unit comparison of strings; model of the effect of
`String.prototype.localeCompare` as a sort tie-breaker (the field keys the
source compares are plain ASCII). -/
def strLeChars : List Char → List Char → Bool
  | [], _ => true
  | _ :: _, [] => false
  | a :: as, b :: bs =>
      if a.toNat < b.toNat then true
      else if b.toNat < a.toNat then false
      else strLeChars as bs

def strLe (a b : String) : Bool := strLeChars a.data b.data

/-- `^\d+$`: the key is a non-empty all-digit string. -/
def isAllDigits (s : String) : Bool := s ≠ "" && s.data.all Char.isDigit

/-- `Number(k)` for an all-digit string `k`. -/
def digitsToNat (s : String) : Nat :=
  s.data.foldl (fun acc c => 10 * acc + (c.toNat - 48)) 0

mutual
/-- Model of the JS builtin `String(v)` coercion on JSON-like values:
`null`→"null", booleans, decimal numbers, strings unchanged, arrays via
`Array.prototype.join(",")` (null elements become ""), plain objects become
"[object Object]". -/
def jsToString : Json → String
  | .null => "null"
  | .bool true => "true"
  | .bool false => "false"
  | .num n => toString n
  | .str s => s
  | .arr xs => jsJoin "," xs
  | .obj _ => "[object Object]"
/-- Model of `Array.prototype.join(sep)`: `null`/`undefined` elements
contribute the empty string, all others are `String(·)`-coerced. -/
def jsJoin (sep : String) : List Json → String
  | [] => ""
  | [.null] => ""
  | [x] => jsToString x
  | .null :: xs => "" ++ sep ++ jsJoin sep xs
  | x :: xs => jsToString x ++ sep ++ jsJoin sep xs
end

def jsonQuoteChar (c : Char) : String :=
  if c = '"' then "\\\""
  else if c = '\\' then "\\\\"
  else if c = '\n' then "\\n"
  else if c = '\t' then "\\t"
  else if c = '\r' then "\\r"
  else String.singleton c

def jsonQuote (s : String) : String :=
  "\"" ++ String.join (s.data.map jsonQuoteChar) ++ "\""

mutual
/-- Model of the JS builtin `JSON.stringify` on JSON-like values (no
`undefined` members occur in our value space). -/
def jsonStringify : Json → String
  | .null => "null"
  | .bool true => "true"
  | .bool false => "false"
  | .num n => toString n
  | .str s => jsonQuote s
  | .arr xs => "[" ++ jsonStringifyElems xs ++ "]"
  | .obj fs => "\x7b" ++ jsonStringifyFields fs ++ "\x7d"
def jsonStringifyElems : List Json → String
  | [] => ""
  | [x] => jsonStringify x
  | x :: xs => jsonStringify x ++ "," ++ jsonStringifyElems xs
def jsonStringifyFields : List (String × Json) → String
  | [] => ""
  | [(k, v)] => jsonQuote k ++ ":" ++ jsonStringify v
  | (k, v) :: xs => jsonQuote k ++ ":" ++ jsonStringify v ++ "," ++ jsonStringifyFields xs
end

/-- Model of `String.prototype.slice(0, n)` (taking at most `n` characters). -/
def jsSlice (s : String) (n : Nat) : String := ⟨s.data.take n⟩

/-- Raw property access `o[k]`: `some v` when the property is present (even
with value `null`), `none` when absent (JS `undefined`).  Non-objects have no
named properties of interest to the source. -/
def getRaw (j : Json) (k : String) : Option Json :=
  match j with
  | .obj fs => fs.lookup k
  | _ => none

/-- Optional-chaining access `o?.k` under nullish-coalescing: `none` models a
nullish (`null`/`undefined`) outcome, so both an absent property and a
property explicitly set to `null` give `none`. -/
def nn (j : Json) (k : String) : Option Json :=
  match getRaw j k with
  | some .null => none
  | some v => some v
  | none => none

/-- A `??` chain `o?.k₁ ?? o?.k₂ ?? …`: first non-nullish candidate wins. -/
def nnChain (j : Json) (keys : List String) : Option Json :=
  keys.findSome? (nn j)

/-- Two-step optional access `o?.a?.b`. -/
def nn2 (j : Json) (k1 k2 : String) : Option Json :=
  match nn j k1 with
  | some v => nn v k2
  | none => none


/-!
## ValueExtractor / ShapeNormalizer

Embeds `fromDataArray` (src/index.js:654-668) and `fromDataObject`
(src/index.js:669-697) from the `inspect_resultfields_deep` handler.  A
`FieldTuple` is `{label, id, value}`; `label || null` and `id || null` in the
source become `Option`s filtered on JS truthiness.
-/

structure FieldTuple where
  label : Option String
  id : Option Json
  value : Json
deriving DecidableEq

/-- One iteration of the `for (const it of arr)` loop body of `fromDataArray`
(src/index.js:657-666): label from the `?? ` chain over
`label`/`name`/`title`/`key` then trimmed, id from `id`/`fieldId`/numeric
`key`, value from the chain over `value`/`val`/`data`/`text`/`content` with
an `Array.isArray(values)` join fallback; entries without a truthy label/id or
with a null/blank coerced value are skipped. -/
def arrEntry (it : Json) : Option FieldTuple :=
  let label := jsTrim (jsToString ((nnChain it ["label", "name", "title", "key"]).getD (.str "")))
  let id : Json :=
    (nnChain it ["id", "fieldId"]).getD
      (match nn it "key" with
       | some (.num n) => .num n
       | _ => .null)
  let value : Json :=
    (nnChain it ["value", "val", "data", "text", "content"]).getD
      (match nn it "values" with
       | some (.arr xs) => .str (jsJoin ", " xs)
       | _ => .null)
  if label = "" && !jsTruthy id then none
  else if value = .null || jsTrim (jsToString value) = "" then none
  else some ⟨if label = "" then none else some label,
             if jsTruthy id then some id else none,
             value⟩

/-- `fromDataArray` (src/index.js:654-668): guard `Array.isArray(arr)`, then
collect the non-skipped tuples in element order. -/
def fromDataArray (j : Json) : List FieldTuple :=
  match j with
  | .arr items => items.filterMap arrEntry
  | _ => []

/-- The structured ("first pass") loop body of `fromDataObject`
(src/index.js:674-684): only entries whose value `v` is a non-null, non-array
object are considered; label falls back to the key `k`, id falls back to
`Number(k)` for all-digit keys. -/
def structEntry (k : String) (v : Json) : Option FieldTuple :=
  match v with
  | .obj _ =>
    let label := jsTrim (jsToString ((nnChain v ["label", "name", "title"]).getD (.str k)))
    let id : Json :=
      (nnChain v ["id", "fieldId"]).getD
        (if isAllDigits k then .num (digitsToNat k) else .null)
    let value : Option Json :=
      (nnChain v ["value", "val", "text"]).orElse
        (fun _ =>
          match nn v "values" with
          | some (.arr xs) => some (.str (jsJoin ", " xs))
          | _ => none)
    match value with
    | some w =>
        if (label ≠ "" || jsTruthy id) && jsTrim (jsToString w) ≠ "" then
          some ⟨if label = "" then none else some label,
                if jsTruthy id then some id else none,
                w⟩
        else none
    | none => none
  | _ => none

/-- The bare-numeric ("second pass") loop body of `fromDataObject`
(src/index.js:687-695): all-digit keys only, id `Number(k)`, raw value, kept
when the value is non-null and its `String(·)` coercion is non-blank. -/
def bareEntry (k : String) (v : Json) : Option FieldTuple :=
  if isAllDigits k then
    if v ≠ .null && jsTrim (jsToString v) ≠ "" then
      some ⟨none, some (.num (digitsToNat k)), v⟩
    else none
  else none

/-- First `for (const [k,v] of Object.entries(obj))` loop of `fromDataObject`:
accumulates pushed tuples in `out` and the `structured` flag. -/
def structLoop : List (String × Json) → List FieldTuple → Bool → List FieldTuple × Bool
  | [], out, structured => (out, structured)
  | (k, v) :: rest, out, structured =>
      match structEntry k v with
      | some t => structLoop rest (out ++ [t]) true
      | none => structLoop rest out structured

/-- Second loop of `fromDataObject`, pushing bare-numeric tuples onto `out`. -/
def bareLoop : List (String × Json) → List FieldTuple → List FieldTuple
  | [], out => out
  | (k, v) :: rest, out =>
      match bareEntry k v with
      | some t => bareLoop rest (out ++ [t])
      | none => bareLoop rest out

/-- `fromDataObject` (src/index.js:669-697): guard
`!obj || typeof obj !== "object" || Array.isArray(obj)`, then the structured
pass; if it set the `structured` flag its tuples are returned, otherwise the
bare-numeric pass runs over the same entries. -/
def fromDataObject (j : Json) : List FieldTuple :=
  match j with
  | .obj fields =>
      let (out, structured) := structLoop fields [] false
      if structured then out else bareLoop fields out
  | _ => []

/-- Two-pass strategy as the specification words it: a structured pass over
exactly the entries whose value is a nested mapping; if it yields at least one
tuple those tuples are the result and the second pass never runs; otherwise
the bare-numeric pass emits `⟨null, Number k, raw value⟩` for exactly the
all-digit keys whose value coerces to a non-blank string. -/
def specObjectShape (j : Json) : List FieldTuple :=
  match j with
  | .obj fields =>
      let structuredT := fields.filterMap (fun kv => structEntry kv.1 kv.2)
      if structuredT.isEmpty then
        fields.filterMap (fun kv =>
          if isAllDigits kv.1 && kv.2 ≠ .null && jsTrim (jsToString kv.2) ≠ "" then
            some ⟨none, some (.num (digitsToNat kv.1)), kv.2⟩
          else none)
      else structuredT
  | _ => []


theorem structLoop_eq (fields : List (String × Json)) :
    ∀ out b, structLoop fields out b =
      (out ++ fields.filterMap (fun kv => structEntry kv.1 kv.2),
       b || !(fields.filterMap (fun kv => structEntry kv.1 kv.2)).isEmpty) := by
  induction fields with
  | nil => intro out b; simp [structLoop]
  | cons kv rest ih =>
      intro out b
      obtain ⟨k, v⟩ := kv
      simp only [structLoop, List.filterMap_cons]
      cases h : structEntry k v with
      | none => simp [ih]
      | some t => simp [ih, List.append_assoc]

theorem bareLoop_eq (fields : List (String × Json)) :
    ∀ out, bareLoop fields out =
      out ++ fields.filterMap (fun kv => bareEntry kv.1 kv.2) := by
  induction fields with
  | nil => intro out; simp [bareLoop]
  | cons kv rest ih =>
      intro out
      obtain ⟨k, v⟩ := kv
      simp only [bareLoop, List.filterMap_cons]
      cases h : bareEntry k v with
      | none => simp [ih]
      | some t => simp [ih, List.append_assoc]

theorem bareEntry_eq (k : String) (v : Json) :
    bareEntry k v =
      (if isAllDigits k && v ≠ .null && jsTrim (jsToString v) ≠ "" then
        some ⟨none, some (.num (digitsToNat k)), v⟩
      else none) := by
  unfold bareEntry
  by_cases h1 : isAllDigits k = true
  · by_cases h2 : (v ≠ Json.null && jsTrim (jsToString v) ≠ "") = true
    · simp [h1, h2]
    · simp [h1, h2]
  · simp [Bool.not_eq_true] at h1
    simp [h1]

/-- C1: `fromDataObject`'s object shape is a two-pass strategy — the first
("structured") pass considers only entries whose value is itself a nested
mapping; if it pushes at least one tuple those tuples are the whole result and
the second pass never runs; only when the structured pass yields nothing does
the second ("bare numeric") pass run, emitting `⟨null, Number(k), raw value⟩`
for exactly the keys matching `^\d+$` whose coerced value is non-empty after
trimming.  Formally: `fromDataObject` equals the specification-side two-pass
function on every input. -/
theorem fromDataObject_two_pass (j : Json) : fromDataObject j = specObjectShape j := by
  cases j with
  | obj fields =>
      simp only [fromDataObject, specObjectShape, structLoop_eq fields [] false,
        List.nil_append, Bool.false_or]
      cases h : fields.filterMap (fun kv => structEntry kv.1 kv.2) with
      | nil => simp [bareLoop_eq, bareEntry_eq]
      | cons t ts => simp
  | null => rfl
  | bool b => rfl
  | num n => rfl
  | str s => rfl
  | arr xs => rfl

/-- C3 counterexample: label resolution does NOT skip empty strings.  An entry
with `label: ""` and `name: "alice"` yields no tuple from `fromDataArray`
(the `??` chain takes the empty `label`, and with no id the entry is dropped),
and the analogous `fromDataObject` entry gets label `null` (falling back to
the numeric id), not `"bob"` — refuting "first non-empty string wins". -/
theorem label_empty_not_skipped :
    fromDataArray (.arr [.obj [("label", .str ""), ("name", .str "alice"), ("value", .str "v")]]) = []
    ∧ fromDataObject (.obj [("7", .obj [("label", .str ""), ("name", .str "bob"), ("value", .str "v")])]) =
        [⟨none, some (.num 7), .str "v"⟩] := by
  constructor <;> decide

/-- C3 amended: label resolution is nullish coalescing over
`label`/`name`/`title`/`key` — the first non-nullish candidate wins (then the
`String(·)` coercion is trimmed), so a present empty-string `label` shadows a
non-empty `name`; an entry whose chosen label trims to empty and which has no
truthy id yields no tuple. -/
theorem label_resolution_nullish (lbl nm vl : String) :
    fromDataArray (.arr [.obj [("label", .str lbl), ("name", .str nm), ("value", .str vl)]]) =
      (if jsTrim lbl ≠ "" ∧ jsTrim vl ≠ "" then [⟨some (jsTrim lbl), none, .str vl⟩] else []) := by
  simp only [fromDataArray, List.filterMap_cons, List.filterMap_nil, arrEntry,
    nnChain, nn, getRaw, List.findSome?, List.lookup, jsToString]
  by_cases h1 : jsTrim lbl = ""
  · simp [h1, jsTruthy]
  · by_cases h2 : jsTrim vl = ""
    · simp [h1, h2, jsTruthy]
    · simp [h1, h2, jsTruthy]

/-- C6: the normalization functions are total over arbitrary JSON-like input —
they are total Lean functions of `Json` (covering null, booleans, numbers,
strings, arrays and objects of any nesting), and they return the empty list
for every non-array input (`fromDataArray`) resp. every non-object input
(`fromDataObject`), in particular for null, booleans, numbers and strings. -/
theorem normalization_total (b : Bool) (n : Int) (s : String)
    (xs : List Json) (fs : List (String × Json)) :
    fromDataArray .null = [] ∧ fromDataArray (.bool b) = [] ∧ fromDataArray (.num n) = [] ∧
    fromDataArray (.str s) = [] ∧ fromDataArray (.obj fs) = [] ∧
    fromDataObject .null = [] ∧ fromDataObject (.bool b) = [] ∧ fromDataObject (.num n) = [] ∧
    fromDataObject (.str s) = [] ∧ fromDataObject (.arr xs) = [] :=
  ⟨rfl, rfl, rfl, rfl, rfl, rfl, rfl, rfl, rfl, rfl⟩

/-!
## FieldAggregator

Embeds `hit` (src/index.js:589-595) and the `summary` computation
(src/index.js:609-617) of the `inspect_nonpii` handler.  The `seen` object is
an association list in property-insertion order (the field keys all contain a
dot or letters, so JS enumeration order is insertion order).  The source's
`example` member is named `exampleVal` here (`example` is a Lean keyword). -/

structure AggEntry where
  count : Nat
  exampleVal : Json
deriving DecidableEq

/-- The guard `val == null || (typeof val === "string" && val.trim() === "")`. -/
def isBlankVal : Json → Bool
  | .null => true
  | .str s => jsTrim s = ""
  | _ => false

/-- The replacement guard `example == null || example === ""`. -/
def exampleEmpty : Json → Bool
  | .null => true
  | .str s => s = ""
  | _ => false

/-- In-place property assignment `seen[fieldId] = …` for an existing key. -/
def updateAssoc : List (String × AggEntry) → String → AggEntry → List (String × AggEntry)
  | [], _, _ => []
  | (k0, v0) :: rest, k, e =>
      if k0 = k then (k0, e) :: rest else (k0, v0) :: updateAssoc rest k e

/-- `hit(fieldId, val)` (src/index.js:590-595).  On a fresh key the source
creates `{count: 0, example: val}`, increments to `1`, and the replacement
check then keeps `val` (it cannot be null/"" past the guard), so the new entry
is `⟨1, val⟩`. -/
def hit (seen : List (String × AggEntry)) (fieldId : String) (val : Json) :
    List (String × AggEntry) :=
  if isBlankVal val then seen
  else
    match seen.lookup fieldId with
    | none => seen ++ [(fieldId, ⟨1, val⟩)]
    | some e =>
        updateAssoc seen fieldId
          ⟨e.count + 1, if exampleEmpty e.exampleVal then val else e.exampleVal⟩

structure SummaryRow where
  field : String
  coverage_pct : Nat
  count : Nat
  exampleVal : Json
deriving DecidableEq

/-- `Math.round(a / b)` for non-negative operands: round half up. -/
def jsRoundDiv (a b : Nat) : Nat := (2 * a + b) / (2 * b)

/-- The sort comparator `(b.coverage_pct - a.coverage_pct) || a.field.localeCompare(b.field)`
read as a "comes no later than" relation: descending coverage, ties broken by
ascending field key. -/
def sortLe (a b : SummaryRow) : Bool :=
  if a.coverage_pct = b.coverage_pct then strLe a.field b.field
  else b.coverage_pct < a.coverage_pct

/-- The `summary` computation (src/index.js:609-617): `total = rows.length || 1`,
one row per `seen` entry with `coverage_pct = Math.round(count / total * 100)`,
sorted by the comparator. -/
def summary (seen : List (String × AggEntry)) (rowsLen : Nat) : List SummaryRow :=
  let total := if rowsLen = 0 then 1 else rowsLen
  (seen.map fun p =>
    SummaryRow.mk p.1 (jsRoundDiv (p.2.count * 100) total) p.2.count p.2.exampleVal).mergeSort sortLe

theorem strLeChars_total (x y : List Char) : strLeChars x y || strLeChars y x := by
  induction x generalizing y with
  | nil => simp [strLeChars]
  | cons a as ih =>
      cases y with
      | nil => simp [strLeChars]
      | cons b bs =>
          simp only [strLeChars]
          by_cases h1 : a.toNat < b.toNat
          · simp [h1]
          · by_cases h2 : b.toNat < a.toNat
            · simp [h1, h2]
            · simpa [h1, h2] using ih bs

theorem strLeChars_trans (x y z : List Char) (h1 : strLeChars x y) (h2 : strLeChars y z) :
    strLeChars x z := by
  induction x generalizing y z with
  | nil => simp [strLeChars]
  | cons a as ih =>
      cases y with
      | nil => simp [strLeChars] at h1
      | cons b bs =>
          cases z with
          | nil => simp [strLeChars] at h2
          | cons c cs =>
              simp only [strLeChars] at h1 h2 ⊢
              by_cases hab : a.toNat < b.toNat
              · by_cases hbc : b.toNat < c.toNat
                · have hac : a.toNat < c.toNat := by omega
                  simp [hac]
                · by_cases hcb : c.toNat < b.toNat
                  · simp [hbc, hcb] at h2
                  · have hac : a.toNat < c.toNat := by omega
                    simp [hac]
              · by_cases hba : b.toNat < a.toNat
                · simp [hab, hba] at h1
                · by_cases hbc : b.toNat < c.toNat
                  · have hac : a.toNat < c.toNat := by omega
                    simp [hac]
                  · by_cases hcb : c.toNat < b.toNat
                    · simp [hbc, hcb] at h2
                    · have hac : ¬ a.toNat < c.toNat := by omega
                      have hca : ¬ c.toNat < a.toNat := by omega
                      simp only [hab, hba, if_false] at h1
                      simp only [hbc, hcb, if_false] at h2
                      simp only [hac, hca, if_false]
                      exact ih bs cs h1 h2

theorem sortLe_total (a b : SummaryRow) : sortLe a b || sortLe b a := by
  unfold sortLe strLe
  by_cases h : a.coverage_pct = b.coverage_pct
  · simp [h, strLeChars_total]
  · have h2 : ¬ b.coverage_pct = a.coverage_pct := fun hh => h hh.symm
    rw [if_neg h, if_neg h2]
    simp only [Bool.or_eq_true, decide_eq_true_eq]
    omega

theorem sortLe_trans (a b c : SummaryRow) (h1 : sortLe a b) (h2 : sortLe b c) : sortLe a c := by
  unfold sortLe strLe at h1 h2 ⊢
  by_cases hab : a.coverage_pct = b.coverage_pct
  · by_cases hbc : b.coverage_pct = c.coverage_pct
    · have hac : a.coverage_pct = c.coverage_pct := hab.trans hbc
      rw [if_pos hab] at h1
      rw [if_pos hbc] at h2
      rw [if_pos hac]
      exact strLeChars_trans _ _ _ h1 h2
    · have hac : ¬ a.coverage_pct = c.coverage_pct := by rw [hab]; exact hbc
      rw [if_neg hbc] at h2
      rw [if_neg hac, hab]
      exact h2
  · rw [if_neg hab] at h1
    by_cases hbc : b.coverage_pct = c.coverage_pct
    · have hac : ¬ a.coverage_pct = c.coverage_pct := by rw [← hbc]; exact hab
      rw [if_neg hac, ← hbc]
      exact h1
    · rw [if_neg hbc] at h2
      simp only [decide_eq_true_eq] at h1 h2
      have hac : ¬ a.coverage_pct = c.coverage_pct := by omega
      rw [if_neg hac]
      simp only [decide_eq_true_eq]
      omega

theorem lookup_append_right (l : List (String × AggEntry)) (k : String) (x : AggEntry)
    (h : l.lookup k = none) : (l ++ [(k, x)]).lookup k = some x := by
  induction l with
  | nil => simp [List.lookup]
  | cons p rest ih =>
      obtain ⟨k0, v0⟩ := p
      simp only [List.lookup, List.cons_append] at h ⊢
      cases hk : k == k0 with
      | true => simp [hk] at h
      | false => simp only [hk] at h ⊢; exact ih h

theorem lookup_updateAssoc (l : List (String × AggEntry)) (k : String) (e2 : AggEntry)
    (h : (l.lookup k).isSome) : (updateAssoc l k e2).lookup k = some e2 := by
  induction l with
  | nil => simp [List.lookup] at h
  | cons p rest ih =>
      obtain ⟨k0, v0⟩ := p
      simp only [List.lookup] at h
      cases hk : k == k0 with
      | true =>
          have hkk : k0 = k := (beq_iff_eq.mp hk).symm
          simp [updateAssoc, hkk, List.lookup]
      | false =>
          have hkk : ¬ k0 = k := fun hh => by simp [hh] at hk
          simp only [hk] at h
          simp only [updateAssoc, if_neg hkk, List.lookup, hk]
          exact ih h

/-- C4: FieldAggregator's example policy is first-wins — the first hit for a
key creates an entry with `count = 1` and `example` equal to that hit's value,
each later hit increments `count` by exactly 1 and replaces `example` only
while it is null/empty; concretely, after hits `("a","x")` then `("a","y")`
the key `"a"` reports `example "x"` and `count 2`, both in the `seen` map and
in the resulting summary row. -/
theorem fieldAggregator_first_wins :
    (∀ (seen : List (String × AggEntry)) (k : String) (v : Json),
        isBlankVal v = false → seen.lookup k = none →
        (hit seen k v).lookup k = some ⟨1, v⟩) ∧
    (∀ (seen : List (String × AggEntry)) (k : String) (v : Json) (e : AggEntry),
        isBlankVal v = false → seen.lookup k = some e →
        (hit seen k v).lookup k =
          some ⟨e.count + 1, if exampleEmpty e.exampleVal then v else e.exampleVal⟩) ∧
    (hit (hit [] "a" (.str "x")) "a" (.str "y")).lookup "a" = some ⟨2, .str "x"⟩ ∧
    summary (hit (hit [] "a" (.str "x")) "a" (.str "y")) 2 = [⟨"a", 100, 2, .str "x"⟩] := by
  refine ⟨?_, ?_, ?_, ?_⟩
  · intro seen k v hv hnone
    simp only [hit, hv, Bool.false_eq_true, if_false, hnone]
    exact lookup_append_right seen k _ hnone
  · intro seen k v e hv hsome
    simp only [hit, hv, Bool.false_eq_true, if_false, hsome]
    exact lookup_updateAssoc seen k _ (by simp [hsome])
  · decide
  · have h : hit (hit [] "a" (.str "x")) "a" (.str "y") = [("a", ⟨2, .str "x"⟩)] := by decide
    rw [h]
    simp only [summary, List.map_cons, List.map_nil, List.mergeSort_singleton]
    decide

/-- C4 witness: first hit on a fresh key, then a second hit, at concrete
inputs. -/
theorem fieldAggregator_first_wins_witness :
    (hit [] "b" (.str "z")).lookup "b" = some ⟨1, .str "z"⟩ ∧
    (hit [("b", ⟨1, .str "z"⟩)] "b" (.str "w")).lookup "b" = some ⟨2, .str "z"⟩ := by
  constructor
  · exact fieldAggregator_first_wins.1 [] "b" (.str "z") (by decide) (by decide)
  · have h := fieldAggregator_first_wins.2.1 [("b", ⟨1, .str "z"⟩)] "b" (.str "w")
      ⟨1, .str "z"⟩ (by decide) (by decide)
    simpa [exampleEmpty] using h

/-- C5: every summary row's `coverage_pct` equals
`round(count / max(totalRecords,1) * 100)`, the returned list is sorted by
descending coverage with ties broken by ascending field key, and a key hit
exactly twice over `totalRecords = 4` reports `coverage_pct = 50`. -/
theorem summary_coverage_and_sort (seen : List (String × AggEntry)) (rowsLen : Nat) :
    (∀ r ∈ summary seen rowsLen, r.coverage_pct = jsRoundDiv (r.count * 100) (max rowsLen 1)) ∧
    (summary seen rowsLen).Pairwise (fun a b => sortLe a b = true) ∧
    summary [("k", ⟨2, .str "e"⟩)] 4 = [⟨"k", 50, 2, .str "e"⟩] := by
  have htot : (if rowsLen = 0 then 1 else rowsLen) = max rowsLen 1 := by
    cases rowsLen with
    | zero => simp
    | succ n => simp [Nat.max_eq_left (Nat.succ_le_succ (Nat.zero_le n))]
  refine ⟨?_, ?_, ?_⟩
  · intro r hr
    simp only [summary, List.mem_mergeSort, List.mem_map] at hr
    obtain ⟨p, _, hp⟩ := hr
    rw [← hp, ← htot]
  · exact List.sorted_mergeSort sortLe_trans sortLe_total _
  · simp only [summary, List.map_cons, List.map_nil, List.mergeSort_singleton]
    decide

/-- C5 witness: the coverage formula instantiated at the concrete summary row
produced by a key hit twice over four records. -/
theorem summary_coverage_and_sort_witness :
    (50 : Nat) = jsRoundDiv (2 * 100) (max 4 1) := by
  have h := summary_coverage_and_sort [("k", ⟨2, .str "e"⟩)] 4
  have hmem : (⟨"k", 50, 2, .str "e"⟩ : SummaryRow) ∈ summary [("k", ⟨2, .str "e"⟩)] 4 := by
    rw [h.2.2]
    exact List.mem_singleton_self _
  exact h.1 _ hmem

/-!
## LeadListFetcher totalCount

Embeds the `totalCount` resolution of the `/adversus/leads` handler
(src/index.js:178-185 of the first server copy, identically at 512-517):
a `||` chain over `(typeof payload?.x === "number" && payload.x)` candidates,
then the bare-array length, then the post-truncation item count.  JS `||`
falls through on falsy values, so a numeric field equal to `0` is skipped. -/

/-- `typeof payload?.k === "number" ? payload.k : undefined` as an option. -/
def numGet (j : Json) (k : String) : Option Int :=
  match getRaw j k with
  | some (.num n) => some n
  | _ => none

/-- One step of the `||` chain: a present numeric candidate wins unless it is
falsy (`0`), in which case evaluation falls through to the rest. -/
def jsOrNum (a : Option Int) (b : Int) : Int :=
  match a with
  | some n => if n = 0 then b else n
  | none => b

/-- `totalCount` (src/index.js:178-183): the exact `||` chain of the source. -/
def totalCount (payload : Json) (itemsLen : Nat) : Int :=
  jsOrNum (numGet payload "total")
    (jsOrNum (numGet payload "count")
      (jsOrNum (numGet payload "totalCount")
        (jsOrNum
          (match payload with
           | .arr xs => some (xs.length : Int)
           | _ => none)
          itemsLen)))

/-- The amended resolution rule: the first NONZERO numeric
`total`/`count`/`totalCount` field wins, else a nonzero bare-array length,
else the post-truncation item count. -/
def specTotalCount (payload : Json) (itemsLen : Nat) : Int :=
  (([numGet payload "total", numGet payload "count", numGet payload "totalCount",
     (match payload with
      | .arr xs => some (xs.length : Int)
      | _ => none)].findSome?
      (fun o => o.bind (fun n => if n = 0 then none else some n))).getD itemsLen)

/-- C7 counterexample: an explicit numeric `total` field equal to `0` does NOT
take precedence — `0` is falsy, so the `||` chain falls through to `count`
(here `5`), contradicting the claim that the reported total would be `0`. -/
theorem totalCount_zero_not_precedent :
    totalCount (.obj [("total", .num 0), ("count", .num 5)]) 0 = 5 ∧ (5 : Int) ≠ 0 := by
  constructor
  · decide
  · decide

theorem jsOrNum_findSome (a : Option Int) (tail : List (Option Int)) (d : Int) :
    ((a :: tail).findSome? (fun o => o.bind (fun n => if n = 0 then none else some n))).getD d
      = jsOrNum a
          ((tail.findSome? (fun o => o.bind (fun n => if n = 0 then none else some n))).getD d) := by
  cases a with
  | none => simp [List.findSome?, jsOrNum]
  | some n =>
      by_cases hz : n = 0 <;> simp [List.findSome?, jsOrNum, hz]

/-- C7 amended: `totalCount` resolves to the first nonzero numeric
`total`/`count`/`totalCount` envelope field, else the nonzero bare-array
length, else the post-truncation item-list length; zero-valued candidates are
skipped as falsy. -/
theorem totalCount_resolution (payload : Json) (itemsLen : Nat) :
    totalCount payload itemsLen = specTotalCount payload itemsLen := by
  simp only [specTotalCount, jsOrNum_findSome, List.findSome?_nil, Option.getD_none, totalCount]

/-!
## Secret check and webhook

Embeds `readSecrets` (src/index.js:23-38), `requireSecret`
(src/index.js:39-47) and the `/webhook/adversus` handler
(src/index.js:108-123).  A request carries the optional raw header and query
strings; `x?.toString() || ""` / `a || b` fall back on empty strings. -/

structure Req where
  headerSecret : Option String
  querySecret : Option String
  queryAdvSecret : Option String
  queryKey : Option String
  queryAdvKey : Option String

/-- `a?.toString() || rest`: an absent or empty string falls through. -/
def orEmptyStr (a : Option String) (rest : String) : String :=
  match a with
  | some s => if s = "" then rest else s
  | none => rest

/-- `readSecrets(req)` (src/index.js:23-38): resolve the supplied header and
query secrets, then match each against the configured env secret; all three
comparisons require both sides non-empty.  Returns `(ok, usedSource)`. -/
def readSecrets (req : Req) (envSecret : String) : Bool × Option String :=
  let headerSecret := orEmptyStr req.headerSecret ""
  let querySecret := orEmptyStr req.querySecret (orEmptyStr req.queryAdvSecret "")
  let queryKey := orEmptyStr req.queryKey (orEmptyStr req.queryAdvKey "")
  let envS := if envSecret = "" then "" else envSecret
  let usedSource : Option String :=
    if headerSecret ≠ "" ∧ envS ≠ "" ∧ headerSecret = envS then some "header:secret"
    else if querySecret ≠ "" ∧ envS ≠ "" ∧ querySecret = envS then some "query:secret"
    else if queryKey ≠ "" ∧ envS ≠ "" ∧ queryKey = envS then some "query:key"
    else none
  (usedSource.isSome, usedSource)

/-- One debug-buffer entry `{receivedAt, eventType, payload}`. -/
structure Event where
  receivedAt : String
  eventType : Json
  payload : Json

/-- Truthy `||` on JSON values. -/
def jsOr (a b : Json) : Json := if jsTruthy a then a else b

/-- The `/webhook/adversus` handler (src/index.js:108-123) guarded by
`requireSecret` (src/index.js:39-47): on a failed secret check respond 401
without touching the buffer; otherwise unshift the event and cap the buffer at
`MAX_EVENTS = 200`.  The DB insert is fire-and-forget and does not affect the
response or the buffer.  Returns `(status, buffer)`. -/
def webhookPost (envSecret : String) (req : Req) (rawBody : Json) (now : String)
    (buf : List Event) : Nat × List Event :=
  if (readSecrets req envSecret).1 = false then (401, buf)
  else
    let payload := if jsTruthy rawBody then rawBody else .obj []
    let eventType :=
      jsOr ((getRaw payload "event").getD .null)
        (jsOr ((getRaw payload "type").getD .null) .null)
    let buf1 := Event.mk now eventType payload :: buf
    let buf2 := if buf1.length > 200 then buf1.dropLast else buf1
    (200, buf2)

/-- `requireSecret` as the generic gate in front of any protected handler:
reject with 401 leaving the state alone, or run the handler. -/
def protect (envSecret : String) (req : Req)
    (handler : List Event → Nat × List Event) (buf : List Event) : Nat × List Event :=
  if (readSecrets req envSecret).1 = false then (401, buf) else handler buf

/-- C9: a POST to the webhook whose supplied secret fails the check
(`readSecrets` not ok) gets status 401 and the debug event buffer is returned
completely unchanged — nothing is appended and no entry is modified. -/
theorem webhook_invalid_secret (envSecret : String) (req : Req) (rawBody : Json)
    (now : String) (buf : List Event)
    (h : (readSecrets req envSecret).1 = false) :
    webhookPost envSecret req rawBody now buf = (401, buf) := by
  unfold webhookPost
  rw [if_pos h]

/-- C9 witness: a concrete request carrying a wrong header secret against a
configured secret. -/
theorem webhook_invalid_secret_witness :
    webhookPost "s3cret" (Req.mk (some "wrong") none none none none)
      (.obj [("event", .str "lead_saved")]) "t0" [] = (401, []) :=
  webhook_invalid_secret "s3cret" (Req.mk (some "wrong") none none none none)
    (.obj [("event", .str "lead_saved")]) "t0" [] (by decide)

/-- C10: fail-closed authentication — with an empty configured secret,
`readSecrets` returns `ok = false` (and no used source) for EVERY request,
whatever header or query secrets it supplies (in particular an empty supplied
secret never matches the empty configured secret), so every protected
endpoint answers 401 with its state untouched. -/
theorem empty_env_secret_fail_closed (req : Req)
    (handler : List Event → Nat × List Event) (buf : List Event) :
    readSecrets req "" = (false, none) ∧ protect "" req handler buf = (401, buf) := by
  have h : readSecrets req "" = (false, none) := by
    simp [readSecrets]
  refine ⟨h, ?_⟩
  unfold protect
  rw [if_pos (by rw [h])]

/-!
## EnrichmentJoiner

Embeds the contact join of `/adversus/leads/enriched` (src/index.js:224-253):
collect distinct truthy `contactId`s, fetch each contact, build the
`contacts` map, then attach
`contact = lead?.contactId ? (contacts[lead.contactId] || null) : null` onto a
spread copy of every lead.  One `adversusGet` call (src/index.js:126-137)
either settles with `{ok, body}` or THROWS (a rejected `fetch`, including the
15-second abort timeout, is re-thrown as `Fetch failed: …`); the collaborator
is therefore `f : String → Option (Bool × Json)` with `none` for the thrown
outcome.  `fetchContact` (src/index.js:227-231) catches nothing, so a thrown
fetch rejects its promise, `Promise.all` (src/index.js:236) rejects, and the
handler's try/catch answers 500 — the whole join aborts and no enriched
records are produced.  `/v1/contacts/${id}` interpolates the id as a string,
so the fetch depends only on `String(id)`.  Batching five lookups at a time
only orders the fetches; neither the settled `contacts` map nor the
all-or-nothing rejection outcome depends on the batch boundaries, so the
batching itself is not modelled. -/

/-- `fetchContact(id)` (src/index.js:227-231): a thrown `adversusGet`
propagates (`none`); a settled non-ok response resolves to `null`; a settled
ok response resolves to its body. -/
def fetchContact (f : String → Option (Bool × Json)) (idStr : String) : Option Json :=
  match f idStr with
  | none => none
  | some r => some (if r.1 then r.2 else .null)

/-- The value stored into `contacts[id]` when the fetch settled. -/
def settledContact (f : String → Option (Bool × Json)) (idStr : String) : Json :=
  (fetchContact f idStr).getD .null

/-- `[...new Set(items.map(x => x?.contactId).filter(Boolean))]`. -/
def dedupFirst (l : List Json) : List Json :=
  l.foldl (fun acc x => if x ∈ acc then acc else acc ++ [x]) []

def contactIdsOf (items : List Json) : List Json :=
  dedupFirst (items.filterMap (fun x =>
    match getRaw x "contactId" with
    | some v => if jsTruthy v then some v else none
    | none => none))

/-- JS object property assignment `m[k] = v` (overwrite in place or append). -/
def setField : List (String × Json) → String → Json → List (String × Json)
  | [], k, v => [(k, v)]
  | (k0, v0) :: rest, k, v =>
      if k0 = k then (k0, v) :: rest else (k0, v0) :: setField rest k v

/-- The batched fetch loop (src/index.js:232-238): assign every distinct id
into `contacts`; one thrown `fetchContact` rejects its batch's `Promise.all`
and with it the whole loop (`none` — the handler answers 500). -/
def contactsMapE (items : List Json) (f : String → Option (Bool × Json)) :
    Option (List (String × Json)) :=
  (contactIdsOf items).foldl
    (fun m cid =>
      m.bind (fun mm =>
        (fetchContact f (jsToString cid)).map
          (fun c => setField mm (jsToString cid) c)))
    (some [])

/-- `lead?.contactId ? (contacts[lead.contactId] || null) : null`
(src/index.js:242), given the settled contacts map. -/
def contactOfMap (contacts : List (String × Json)) (lead : Json) : Json :=
  match getRaw lead "contactId" with
  | some cid =>
      if jsTruthy cid then
        let c := (contacts.lookup (jsToString cid)).getD .null
        if jsTruthy c then c else .null
      else .null
  | none => .null

/-- The contact joined onto one lead when the fetch loop settled. -/
def contactOfE (items : List Json) (f : String → Option (Bool × Json)) (lead : Json) : Json :=
  contactOfMap ((contactsMapE items f).getD []) lead

/-- Object spread `{...lead}` for JSON-like values: objects spread their
fields, arrays and strings spread index-keyed, primitives spread to nothing. -/
def jsSpreadFields : Json → List (String × Json)
  | .obj fs => fs
  | .arr xs => xs.enum.map (fun p => (toString p.1, p.2))
  | .str s => s.data.enum.map (fun p => (toString p.1, .str (String.singleton p.2)))
  | _ => []

/-- The join result (src/index.js:241-253): `none` when the contact fetching
threw (the request 500s with no data), else
`items.map(lead => ({...lead, contact}))`. -/
def enrichedE (items : List Json) (f : String → Option (Bool × Json)) : Option (List Json) :=
  (contactsMapE items f).map (fun contacts =>
    items.map (fun lead =>
      .obj (setField (jsSpreadFields lead) "contact" (contactOfMap contacts lead))))

theorem lookup_setField_self (m : List (String × Json)) (k : String) (v : Json) :
    (setField m k v).lookup k = some v := by
  induction m with
  | nil => simp [setField, List.lookup]
  | cons p rest ih =>
      obtain ⟨k0, v0⟩ := p
      by_cases h : k0 = k
      · simp [setField, h, List.lookup]
      · have hne : ¬ (k == k0) = true := by
          simpa [beq_iff_eq] using fun hh => h hh.symm
        simp only [setField, if_neg h, List.lookup]
        simp only [Bool.not_eq_true] at hne
        simp [hne, ih]

theorem lookup_setField_other (m : List (String × Json)) (k : String) (v : Json)
    (s : String) (h : ¬ s = k) : (setField m k v).lookup s = m.lookup s := by
  induction m with
  | nil =>
      have hne : ¬ (s == k) = true := by simpa [beq_iff_eq] using h
      simp only [Bool.not_eq_true] at hne
      simp [setField, List.lookup, hne]
  | cons p rest ih =>
      obtain ⟨k0, v0⟩ := p
      by_cases hk : k0 = k
      · subst hk
        have hne : (s == k0) = false := by
          rw [beq_eq_false_iff_ne]; exact h
        simp [setField, List.lookup, hne]
      · simp only [setField, if_neg hk, List.lookup]
        cases hs : s == k0 with
        | true => rfl
        | false => exact ih

theorem lookup_setFold (g : String → Json) (l : List Json) :
    ∀ (m0 : List (String × Json)) (s : String),
      ((l.foldl (fun m cid => setField m (jsToString cid) (g (jsToString cid))) m0).lookup s)
        = if s ∈ l.map jsToString then some (g s) else m0.lookup s := by
  induction l with
  | nil => intro m0 s; simp
  | cons x xs ih =>
      intro m0 s
      simp only [List.foldl_cons, ih, List.map_cons, List.mem_cons]
      by_cases hxs : s ∈ xs.map jsToString
      · rw [if_pos hxs, if_pos (Or.inr hxs)]
      · by_cases hx : s = jsToString x
        · rw [if_neg hxs, if_pos (Or.inl hx), hx, lookup_setField_self]
        · have h1 : ¬ (s = jsToString x ∨ s ∈ xs.map jsToString) := by
            intro hh; cases hh with
            | inl hh => exact hx hh
            | inr hh => exact hxs hh
          rw [if_neg hxs, if_neg h1]
          exact lookup_setField_other _ _ _ _ hx

theorem mem_dedupFirst_aux (l : List Json) :
    ∀ (acc : List Json) (y : Json),
      (y ∈ l.foldl (fun acc x => if x ∈ acc then acc else acc ++ [x]) acc) ↔ (y ∈ acc ∨ y ∈ l) := by
  induction l with
  | nil => intro acc y; simp
  | cons x xs ih =>
      intro acc y
      simp only [List.foldl_cons]
      by_cases hx : x ∈ acc
      · rw [if_pos hx, ih]
        constructor
        · intro h; cases h with
          | inl h => exact Or.inl h
          | inr h => exact Or.inr (List.mem_cons_of_mem x h)
        · intro h; cases h with
          | inl h => exact Or.inl h
          | inr h =>
              cases List.mem_cons.mp h with
              | inl h => exact Or.inl (h ▸ hx)
              | inr h => exact Or.inr h
      · rw [if_neg hx, ih]
        simp only [List.mem_append, List.mem_singleton, List.mem_cons]
        tauto

theorem mem_dedupFirst (l : List Json) (y : Json) : y ∈ dedupFirst l ↔ y ∈ l := by
  unfold dedupFirst
  rw [mem_dedupFirst_aux]
  simp

theorem mem_contactIdsOf (items : List Json) (lead cid : Json) (hmem : lead ∈ items)
    (hcid : getRaw lead "contactId" = some cid) (ht : jsTruthy cid = true) :
    cid ∈ contactIdsOf items := by
  unfold contactIdsOf
  rw [mem_dedupFirst, List.mem_filterMap]
  exact ⟨lead, hmem, by simp [hcid, ht]⟩

theorem contactsFoldE_settled (f : String → Option (Bool × Json)) (l : List Json) :
    ∀ m0 : List (String × Json), (∀ cid ∈ l, (f (jsToString cid)).isSome) →
      (l.foldl
        (fun m cid =>
          m.bind (fun mm =>
            (fetchContact f (jsToString cid)).map
              (fun c => setField mm (jsToString cid) c)))
        (some m0))
      = some (l.foldl
          (fun m cid => setField m (jsToString cid) (settledContact f (jsToString cid))) m0) := by
  induction l with
  | nil => intro m0 _; simp
  | cons x xs ih =>
      intro m0 hs
      have hx : (f (jsToString x)).isSome := hs x (List.mem_cons_self _ _)
      obtain ⟨r, hr⟩ := Option.isSome_iff_exists.mp hx
      have hfc : fetchContact f (jsToString x) = some (if r.1 then r.2 else .null) := by
        unfold fetchContact; rw [hr]
      have hsc : settledContact f (jsToString x) = (if r.1 then r.2 else .null) := by
        unfold settledContact; rw [hfc]; rfl
      simp only [List.foldl_cons, Option.some_bind, hfc, Option.map_some', hsc]
      exact ih _ (fun cid hc => hs cid (List.mem_cons_of_mem _ hc))

theorem lookup_contactsMapE (items : List Json) (f : String → Option (Bool × Json))
    (lead cid : Json)
    (hsettled : ∀ c ∈ contactIdsOf items, (f (jsToString c)).isSome)
    (hmem : lead ∈ items) (hcid : getRaw lead "contactId" = some cid)
    (ht : jsTruthy cid = true) :
    ((contactsMapE items f).getD []).lookup (jsToString cid)
      = some (settledContact f (jsToString cid)) := by
  unfold contactsMapE
  rw [contactsFoldE_settled f (contactIdsOf items) [] hsettled, Option.getD_some,
    lookup_setFold]
  rw [if_pos (List.mem_map_of_mem jsToString (mem_contactIdsOf items lead cid hmem hcid ht))]

/-- C8 counterexample: a thrown contact fetch ABORTS the whole join.  With
two leads and a collaborator whose fetch for id "1" rejects (network failure
or the abort timeout — `adversusGet`, src/index.js:126-137, re-throws it and
`fetchContact`, src/index.js:227-231, has no catch), the rejection propagates
through `Promise.all` (src/index.js:236) to the handler's try/catch, which
answers 500: no enriched record list is produced at all, refuting "a fetch
failure … never aborts the batch or the overall join" and "every record keeps
its original fields plus a joined contact field". -/
theorem enrichment_throw_aborts_join :
    enrichedE [.obj [("contactId", .num 1)], .obj [("contactId", .num 2)]]
      (fun s => if s = "1" then none else some (true, .obj [("id", .num 2)])) = none := by
  decide

/-- C8 amended: only a SETTLED non-ok response is fail-soft.  When every
needed contact fetch settles, the join produces one record per input lead,
each a spread copy of the lead plus a `contact` member that is `null` for a
missing/falsy `contactId`, `null` when that id's fetch settled non-ok (other
records unaffected), and the fetched body itself when it settled ok with a
truthy body; a THROWN fetch instead aborts the entire join (see the
counterexample), so the fail-soft guarantee is conditional on no fetch
throwing. -/
theorem enrichment_join_fail_soft (items : List Json) (f : String → Option (Bool × Json))
    (hsettled : ∀ cid ∈ contactIdsOf items, (f (jsToString cid)).isSome) :
    (enrichedE items f = some (items.map (fun lead =>
        .obj (setField (jsSpreadFields lead) "contact" (contactOfE items f lead))))) ∧
    (∀ lead, getRaw lead "contactId" = none → contactOfE items f lead = .null) ∧
    (∀ lead cid, getRaw lead "contactId" = some cid → jsTruthy cid = false →
        contactOfE items f lead = .null) ∧
    (∀ lead cid bodyF, lead ∈ items → getRaw lead "contactId" = some cid →
        jsTruthy cid = true → f (jsToString cid) = some (false, bodyF) →
        contactOfE items f lead = .null) ∧
    (∀ lead cid body, lead ∈ items → getRaw lead "contactId" = some cid →
        jsTruthy cid = true → f (jsToString cid) = some (true, body) →
        jsTruthy body = true → contactOfE items f lead = body) := by
  have hM : contactsMapE items f
      = some ((contactIdsOf items).foldl
          (fun m cid => setField m (jsToString cid) (settledContact f (jsToString cid))) []) := by
    unfold contactsMapE
    exact contactsFoldE_settled f (contactIdsOf items) [] hsettled
  refine ⟨?_, ?_, ?_, ?_, ?_⟩
  · unfold enrichedE
    rw [hM, Option.map_some']
    simp only [contactOfE, hM, Option.getD_some]
  · intro lead h
    simp [contactOfE, contactOfMap, h]
  · intro lead cid h ht
    simp [contactOfE, contactOfMap, h, ht]
  · intro lead cid bodyF hmem h ht hf
    have hl := lookup_contactsMapE items f lead cid hsettled hmem h ht
    have hsc : settledContact f (jsToString cid) = .null := by
      unfold settledContact fetchContact
      rw [hf]
      rfl
    simp only [contactOfE, contactOfMap, h, ht, if_true, hl, hsc, Option.getD_some]
    rfl
  · intro lead cid body hmem h ht hf htb
    have hl := lookup_contactsMapE items f lead cid hsettled hmem h ht
    have hsc : settledContact f (jsToString cid) = body := by
      unfold settledContact fetchContact
      rw [hf]
      rfl
    simp only [contactOfE, contactOfMap, h, ht, if_true, hl, hsc, Option.getD_some]
    simp [htb]

/-- C8 witness: three concrete leads under fully settled fetches — one whose
contact fetch settles non-ok (joined null), one whose fetch settles ok
(joined body), one without a contactId. -/
theorem enrichment_join_fail_soft_witness :
    contactOfE [.obj [("contactId", .num 1)], .obj [("contactId", .num 2)], .obj []]
        (fun s => if s = "1" then some (false, .null) else some (true, .obj [("id", .num 2)]))
        (.obj [("contactId", .num 1)]) = .null ∧
    contactOfE [.obj [("contactId", .num 1)], .obj [("contactId", .num 2)], .obj []]
        (fun s => if s = "1" then some (false, .null) else some (true, .obj [("id", .num 2)]))
        (.obj [("contactId", .num 2)]) = .obj [("id", .num 2)] := by
  constructor
  · exact (enrichment_join_fail_soft _ _ (by decide)).2.2.2.1 _ (.num 1) .null
      (List.mem_cons_self _ _) (by decide) (by decide) (by decide)
  · exact (enrichment_join_fail_soft _ _ (by decide)).2.2.2.2 _ (.num 2) (.obj [("id", .num 2)])
      (List.mem_cons_of_mem _ (List.mem_cons_self _ _)) (by decide) (by decide)
      (by decide) (by decide)

/-!
## MultiSourceProber

Embeds the per-lead probing loop of `/adversus/leads/resultdata_ids_preview`
(src/index.js:864-948): three sources tried in order — A `/leads/{id}/results`,
B `/results?leadId=`, C `/leads/{id}?expand=results` (with an `include=`
retry) — each later source only fetched while `hits` is still empty.  A fetch
outcome is `Option FetchResp` (`none` models a thrown/caught-to-null fetch);
phase C takes two outcomes, one per URL variant. -/

structure FetchResp where
  ok : Bool
  body : Json
deriving DecidableEq

/-- `Object.entries(obj)` for the values `collectNumericEntries` iterates:
object fields in enumeration order, arrays index-keyed. -/
def jsEntries : Json → List (String × Json)
  | .obj fs => fs
  | .arr xs => xs.enum.map (fun p => (toString p.1, p.2))
  | _ => []

/-- `coerceExample(val)` (src/index.js:816-825): `null` for nullish input,
arrays joined after dropping nulls, objects unwrapped via
`value`/`val`/`text`/`values` else `JSON.stringify(...).slice(0,200)`,
scalars `String(·)`-coerced. -/
def coerceExample (val : Json) : Option String :=
  match val with
  | .null => none
  | .arr xs => some (String.intercalate ", " ((xs.filter (fun x => x ≠ .null)).map jsToString))
  | .obj _ =>
      match (nnChain val ["value", "val", "text"]).orElse
          (fun _ =>
            match nn val "values" with
            | some (.arr ys) => some (.str (jsJoin ", " ys))
            | _ => none) with
      | some v => some (jsToString v)
      | none => some (jsSlice (jsonStringify val) 200)
  | j => some (jsToString j)

/-- `extractLabel(val, fallbackKey)` (src/index.js:826-832): a truthy
`label`/`name`/`title` on an object wins, else the (stringified) fallback
key. -/
def extractLabel (val : Json) (fallbackKey : Option String) : Option String :=
  let lbl : Json := (nnChain val ["label", "name", "title"]).getD .null
  if jsTruthy lbl then some (jsToString lbl) else fallbackKey

/-- The fixed success vocabulary (src/index.js:812). -/
def successWords : List String :=
  ["success", "successful", "won", "sale", "solgt", "succes", "ok", "completed"]

/-- `isSuccessResult(r)` (src/index.js:833-842): with the filter disabled
everything passes; otherwise collect the candidate status strings (truthy
ones only, lowercased) and demand membership in the vocabulary. -/
def isSuccessResult (requireSuccess : Bool) (r : Json) : Bool :=
  if !requireSuccess then true
  else
    let cand : List Json :=
      ([nn r "status", nn r "result", nn r "outcome", nn r "type",
        nn r "disposition", nn r "dispositionName",
        nn2 r "data" "status", nn2 r "data" "result", nn2 r "data" "outcome",
        nn2 r "data" "type", nn2 r "data" "disposition", nn2 r "data" "dispositionName",
        (match getRaw r "success" with
         | some (.bool b) => some (.str (if b then "success" else ""))
         | _ => none)].filterMap id)
    let cand2 := (cand.filter jsTruthy).map (fun j => jsLower (jsToString j))
    if cand2.isEmpty then false
    else cand2.any (fun s => successWords.contains s)

/-- One numeric-key hit `{id, label, example, source}` (the source's `example`
member is `exampleStr` here). -/
structure NumericHit where
  id : Nat
  label : Option String
  exampleStr : String
  source : String
deriving DecidableEq

/-- `collectNumericEntries(obj, prefixLabel)` (src/index.js:843-856): only
all-digit keys, value coerced via `coerceExample`, label via `extractLabel`
with the key as fallback, kept when the example is non-null and non-blank. -/
def collectNumericEntries (o : Option Json) (srcLabel : String) : List NumericHit :=
  match o with
  | some j =>
      match j with
      | .obj _ | .arr _ =>
          (jsEntries j).filterMap (fun kv =>
            if isAllDigits kv.1 then
              match coerceExample kv.2 with
              | some ex =>
                  if jsTrim ex ≠ "" then
                    some ⟨digitsToNat kv.1, extractLabel kv.2 (some kv.1), ex, srcLabel⟩
                  else none
              | none => none
            else none)
      | _ => []
  | none => []

/-- The five `collectNumericEntries` call sites repeated per result object in
each source loop, with the source tag (`A`/`B`/`C`) in the labels. -/
def resultHits (tag : String) (r : Json) : List NumericHit :=
  collectNumericEntries (nn r "resultData") (tag ++ ".resultData") ++
  collectNumericEntries (nn2 r "data" "resultData") (tag ++ ".data.resultData") ++
  collectNumericEntries (nn r "fields") (tag ++ ".fields") ++
  collectNumericEntries (nn r "resultFields") (tag ++ ".resultFields") ++
  collectNumericEntries (nn2 r "data" "fields") (tag ++ ".data.fields")

/-- One diagnostics entry pushed onto `d.tried`. -/
inductive Tried where
  | counted (endpoint : String) (count : Nat)
  | failed (endpoint : String)
deriving DecidableEq

/-- Source A (src/index.js:871-888): `/leads/{id}/results`. -/
def phaseA (rs : Bool) (src : Option FetchResp) : List NumericHit × List Tried :=
  match src with
  | some r =>
      if r.ok then
        let listA := match r.body with | .arr xs => xs | _ => []
        (listA.foldl (fun acc x => if isSuccessResult rs x then acc ++ resultHits "A" x else acc) [],
         [.counted "leads/\x7bid\x7d/results" listA.length])
      else ([], [.failed "leads/\x7bid\x7d/results"])
  | none => ([], [.failed "leads/\x7bid\x7d/results"])

/-- Source B (src/index.js:890-909): `/results?leadId=`. -/
def phaseB (rs : Bool) (src : Option FetchResp) : List NumericHit × List Tried :=
  match src with
  | some r =>
      if r.ok then
        let listB := match r.body with | .arr xs => xs | _ => []
        (listB.foldl (fun acc x => if isSuccessResult rs x then acc ++ resultHits "B" x else acc) [],
         [.counted "results?leadId" listB.length])
      else ([], [.failed "results?leadId"])
  | none => ([], [.failed "results?leadId"])

/-- `arrayify(x)` (src/index.js:857). -/
def arrayify (o : Option Json) : List Json :=
  match o with
  | some (.arr xs) => xs
  | some j => [j]
  | none => []

/-- `Array.prototype.flat()` (one level). -/
def jsFlat1 : List Json → List Json
  | [] => []
  | .arr ys :: rest => ys ++ jsFlat1 rest
  | x :: rest => x :: jsFlat1 rest

/-- Source C (src/index.js:911-948): `/leads/{id}?expand=results` with an
`include=results` retry, a broad search for a results array, plus lead-level
`resultData` containers. -/
def phaseC (rs : Bool) (c1 c2 : Option FetchResp) : List NumericHit × List Tried :=
  let srcC : Option FetchResp :=
    match c1 with
    | some r => if r.ok then some r else c2
    | none => c2
  match srcC with
  | some r =>
      if r.ok && jsTruthy r.body then
        let b := r.body
        let candidateArrays :=
          arrayify (nn b "results") ++ arrayify (nn2 b "data" "results") ++
          (match getRaw b "leads" with
           | some (.arr ys) => arrayify (ys.head?.bind (fun y => nn y "results"))
           | _ => []) ++
          (match getRaw b "items" with
           | some (.arr ys) => arrayify (ys.head?.bind (fun y => nn y "results"))
           | _ => [])
        let flat := (jsFlat1 candidateArrays).filter jsTruthy
        let fromResults :=
          flat.foldl (fun acc x => if isSuccessResult rs x then acc ++ resultHits "C" x else acc) []
        let leadLevelRD : List (Option Json) :=
          [nn b "resultData", nn2 b "data" "resultData",
           (match getRaw b "leads" with
            | some (.arr ys) => ys.head?.bind (fun y => nn y "resultData")
            | _ => none),
           (match getRaw b "leads" with
            | some (.arr ys) => ys.head?.bind (fun y => nn2 y "data" "resultData")
            | _ => none)]
        let fromLead :=
          leadLevelRD.foldl (fun acc c => acc ++ collectNumericEntries c "C.lead.resultData") []
        (fromResults ++ fromLead, [.counted "leads/\x7bid\x7d?expand/include=results" flat.length])
      else ([], [.failed "leads/\x7bid\x7d?expand/include=results"])
  | none => ([], [.failed "leads/\x7bid\x7d?expand/include=results"])

/-- The per-lead source loop (src/index.js:868-948): source B runs only while
`hits` is empty after A, source C only while `hits` is still empty after B;
`hits` and `d.tried` accumulate in source order. -/
def probeLead (rs : Bool) (a b c1 c2 : Option FetchResp) : List NumericHit × List Tried :=
  let pA := phaseA rs a
  if pA.1.length = 0 then
    let pB := phaseB rs b
    if (pA.1 ++ pB.1).length = 0 then
      let pC := phaseC rs c1 c2
      (pA.1 ++ pB.1 ++ pC.1, pA.2 ++ pB.2 ++ pC.2)
    else (pA.1 ++ pB.1, pA.2 ++ pB.2)
  else (pA.1, pA.2)

/-- The C2 scenario sources: S1 succeeds with an empty result list, S2
succeeds with one successful result carrying `resultData = {"96830": "x"}`. -/
def scenarioSrcA : Option FetchResp := some ⟨true, .arr []⟩

def scenarioResult : Json :=
  .obj [("status", .str "success"), ("resultData", .obj [("96830", .str "x")])]

def scenarioSrcB : Option FetchResp := some ⟨true, .arr [scenarioResult]⟩

def scenarioTuple : NumericHit := ⟨96830, some "96830", "x", "B.resultData"⟩

/-- C2: the prober short-circuits — (i) whenever one of the first two sources
yields a nonempty tuple list, the outcome is independent of the third
source's fetch behaviour (S3 is never fetched); (ii) in the scenario
`[S1 → empty, S2 → [tupleA], S3 → anything]` the returned tuples are exactly
`[tupleA]` and the attempts diagnostics list exactly the S1 and S2 entries —
S3 does not appear. -/
theorem prober_short_circuit :
    (∀ (rs : Bool) (a b c1 c2 c1' c2' : Option FetchResp),
        (phaseA rs a).1 ++ (phaseB rs b).1 ≠ [] →
        probeLead rs a b c1 c2 = probeLead rs a b c1' c2') ∧
    (∀ c1 c2 : Option FetchResp,
        probeLead true scenarioSrcA scenarioSrcB c1 c2 =
          ([scenarioTuple],
           [.counted "leads/\x7bid\x7d/results" 0, .counted "results?leadId" 1])) := by
  constructor
  · intro rs a b c1 c2 c1' c2' h
    unfold probeLead
    by_cases hA : (phaseA rs a).1.length = 0
    · rw [if_pos hA, if_pos hA]
      have hAB : ¬ ((phaseA rs a).1 ++ (phaseB rs b).1).length = 0 := by
        intro hh
        exact h (List.eq_nil_of_length_eq_zero hh)
      rw [if_neg hAB, if_neg hAB]
    · rw [if_neg hA, if_neg hA]
  · intro c1 c2
    have hA : phaseA true scenarioSrcA = ([], [.counted "leads/\x7bid\x7d/results" 0]) := by
      decide
    have hB : phaseB true scenarioSrcB = ([scenarioTuple], [.counted "results?leadId" 1]) := by
      decide
    unfold probeLead
    rw [hA, hB]
    simp

/-- C2 witness: with A empty and B nonempty, the prober's outcome is the same
under two different S3 behaviours (one succeeding, one failing). -/
theorem prober_short_circuit_witness :
    probeLead true scenarioSrcA scenarioSrcB (some ⟨true, .obj [("results", .arr [scenarioResult])]⟩) none =
      probeLead true scenarioSrcA scenarioSrcB none (some ⟨false, .null⟩) :=
  prober_short_circuit.1 true scenarioSrcA scenarioSrcB _ _ _ _ (by decide)
